import Mathlib

/-!
# Shop API — a shallow embedding of `src/lecture_2/hw/shop_api/main.py`

The service keeps two in-memory Python dicts, `items_map : Dict[int, Item]`
and `cart_map : Dict[int, Cart]`, and exposes item/cart operations over them.
We model a Python dict as an association list in insertion order:
`dict[k] = v` updates the entry in place when the key is present (keeping its
position, as CPython dicts do) and appends otherwise; `len` is the number of
entries (the model's `dictSet`/empty dict never produce a duplicate key, so
list length is the Python key count).  Prices (`float` in the source) are
modelled as rationals; fallible endpoints return `Option` — `none` stands
for the request failing (an HTTP 404 from `assert_*_exists`, or the
`AttributeError` that `build_cart_item` raises when `items_map.get(id)`
returns `None`).
-/

namespace ShopApi

/-- `class Item(BaseModel)`: id, name, price, deleted. -/
structure Item where
  id : Nat
  name : String
  price : ℚ
  deleted : Bool
deriving DecidableEq, Repr

/-- `class CartItem(BaseModel)`: one aggregated line of a cart view. -/
structure CartItem where
  id : Nat
  name : String
  quantity : Nat
  available : Bool
deriving DecidableEq, Repr

/-- `class Cart(BaseModel)`: id plus the ordered multiset of item ids. -/
structure Cart where
  id : Nat
  item_ids : List Nat
deriving DecidableEq, Repr

/-- `class CartResponse(BaseModel)`: the materialized cart view. -/
structure CartResponse where
  id : Nat
  items : List CartItem
  price : ℚ
deriving DecidableEq, Repr

/-- Python `d.get(k)` / `d[k]` lookup on the dict model. -/
def dictGet {α : Type} (m : List (Nat × α)) (k : Nat) : Option α :=
  (m.find? (fun p => p.1 == k)).map Prod.snd

/-- Python `k in d`. -/
def dictHas {α : Type} (m : List (Nat × α)) (k : Nat) : Bool :=
  m.any (fun p => p.1 == k)

/-- Python `d[k] = v`: in-place update when the key exists (CPython keeps the
entry's position), append otherwise. -/
def dictSet {α : Type} : List (Nat × α) → Nat → α → List (Nat × α)
  | [], k, v => [(k, v)]
  | p :: t, k, v => if p.1 == k then (k, v) :: t else p :: dictSet t k v

/-- The distinct elements of a list in first-occurrence order: the iteration
order of `collections.Counter(l)`. -/
def firstOccurrences : List Nat → List Nat
  | [] => []
  | x :: xs => x :: (firstOccurrences xs).filter (fun y => y ≠ x)

/-- `Counter(cart.item_ids).items()`: each distinct id with its multiplicity,
in first-occurrence order. -/
def counterItems (l : List Nat) : List (Nat × Nat) :=
  (firstOccurrences l).map (fun x => (x, l.count x))

/-- `Option`-valued map over a list: `none` as soon as one element fails
(models a Python exception escaping a list comprehension). -/
def mapOption {α β : Type} (f : α → Option β) : List α → Option (List β)
  | [] => some []
  | x :: xs =>
    match f x, mapOption f xs with
    | some y, some ys => some (y :: ys)
    | _, _ => none

/-- The items dict `items_map: Dict[int, Item]`. -/
abbrev ItemsMap := List (Nat × Item)

/-- The carts dict `cart_map: Dict[int, Cart]`. -/
abbrev CartMap := List (Nat × Cart)

/-- `build_cart_item(id, count)`: `item = items_map.get(id)` followed by
unconditional attribute access — when the id is absent, `item` is `None` and
`item.name` raises `AttributeError`, modelled by `none`. -/
def build_cart_item (m : ItemsMap) (id count : Nat) : Option CartItem :=
  match dictGet m id with
  | none => none
  | some item => some { id := id, name := item.name, quantity := count, available := !item.deleted }

/-- `build_cart_response(cart)`: aggregate duplicate ids via `Counter`, build
one `CartItem` per distinct id, and price the available lines from the
current `items_map` (`sum(item.quantity * items_map[item.id].price for item
in items if item.available)`). -/
def build_cart_response (m : ItemsMap) (cart : Cart) : Option CartResponse :=
  match mapOption (fun p => build_cart_item m p.1 p.2) (counterItems cart.item_ids) with
  | none => none
  | some items =>
    match mapOption (fun it => (dictGet m it.id).map (fun i => (it.quantity : ℚ) * i.price))
        (items.filter (fun it => it.available)) with
    | none => none
    | some prices => some { id := cart.id, items := items, price := prices.sum }

/-- `build_item(id, request)`. -/
def build_item (id : Nat) (name : String) (price : ℚ) : Item :=
  { id := id, name := name, price := price, deleted := false }

/-- `apply_offset_limit(data, offset, limit) = data[offset:min(len(data), offset + limit)]`. -/
def apply_offset_limit {α : Type} (data : List α) (offset limit : Nat) : List α :=
  (data.take (min data.length (offset + limit))).drop offset

/-- The whole mutable state: both global dicts. -/
structure State where
  items_map : ItemsMap
  cart_map : CartMap
deriving DecidableEq, Repr

/-- `POST /cart`: `id = len(items_map) + 1` (the cross-collection quirk —
the cart id is counted against the *item* dict), store an empty cart under
that id, return the id. -/
def create_cart (s : State) : Nat × State :=
  let id := s.items_map.length + 1
  (id, { s with cart_map := dictSet s.cart_map id { id := id, item_ids := [] } })

/-- `POST /item`: `id = len(items_map) + 1`, build and store the item. -/
def create_item (s : State) (name : String) (price : ℚ) : Item × State :=
  let id := s.items_map.length + 1
  let item := build_item id name price
  (item, { s with items_map := dictSet s.items_map id item })

/-- `GET /item/{id}`: 404 when the id is unknown, 404 when the stored item is
deleted, the item otherwise. -/
def get_item (s : State) (id : Nat) : Option Item :=
  match dictGet s.items_map id with
  | none => none
  | some item => if item.deleted then none else some item

/-- `GET /cart/{id}`: 404 when the cart id is unknown, otherwise materialize
the view (`none` also models `build_cart_response` crashing on a dangling
item reference). -/
def get_cart (s : State) (id : Nat) : Option CartResponse :=
  match dictGet s.cart_map id with
  | none => none
  | some cart => build_cart_response s.items_map cart

/-- `POST /cart/{cart_id}/add/{item_id}`: assert both exist, then append the
item id to the cart's list (in-place mutation of the stored cart). -/
def add_item_to_cart (s : State) (cart_id item_id : Nat) : Option State :=
  match dictGet s.cart_map cart_id with
  | none => none
  | some cart =>
    if dictHas s.items_map item_id then
      some { s with
             cart_map := dictSet s.cart_map cart_id
               { cart with item_ids := cart.item_ids ++ [item_id] } }
    else none

/-- `PUT /item/{id}`: assert the id exists (deleted or not), then rebuild the
item from the request — `deleted` comes back `False` from `build_item`. -/
def put_item (s : State) (id : Nat) (name : String) (price : ℚ) : Option (Item × State) :=
  if dictHas s.items_map id then
    let item := build_item id name price
    some (item, { s with items_map := dictSet s.items_map id item })
  else none

/-- `PATCH /item/{id}`: assert the id exists; a deleted item is returned
unchanged with the 304 signal (`modified = false`) and no mutation; otherwise
only the supplied fields are written and the item is returned with
`modified = true`. -/
def patch_item (s : State) (id : Nat) (name? : Option String) (price? : Option ℚ) :
    Option (Item × Bool × State) :=
  match dictGet s.items_map id with
  | none => none
  | some item =>
    if item.deleted then some (item, false, s)
    else
      let item1 := match name? with
        | some n => { item with name := n }
        | none => item
      let item2 := match price? with
        | some p => { item1 with price := p }
        | none => item1
      some (item2, true, { s with items_map := dictSet s.items_map id item2 })

/-- `DELETE /item/{id}`: assert the id exists, then set `deleted = True`
(idempotent soft delete; the entry stays in the dict). -/
def delete_item (s : State) (id : Nat) : Option State :=
  match dictGet s.items_map id with
  | none => none
  | some item =>
    some { s with items_map := dictSet s.items_map id { item with deleted := true } }

/-- The filter of `GET /item`: price bounds inclusive on both ends, and a
deleted item passes only when `show_deleted` is set. -/
def item_passes (min_price max_price : Option ℚ) (show_deleted : Bool) (item : Item) : Bool :=
  (match min_price with | none => true | some mp => decide (mp ≤ item.price)) &&
  (match max_price with | none => true | some mp => decide (item.price ≤ mp)) &&
  (show_deleted || !item.deleted)

/-- The filtered item list of `GET /item`, before pagination:
`items_map.values()` in insertion order, filtered. -/
def items_filtered (s : State) (min_price max_price : Option ℚ) (show_deleted : Bool) :
    List Item :=
  (s.items_map.map Prod.snd).filter (item_passes min_price max_price show_deleted)

/-- `GET /item`: filter, then `apply_offset_limit`. -/
def get_items (s : State) (offset limit : Nat) (min_price max_price : Option ℚ)
    (show_deleted : Bool) : List Item :=
  apply_offset_limit (items_filtered s min_price max_price show_deleted) offset limit

/-- Total quantity of a cart view, `sum(item.quantity for item in cart.items)`. -/
def cart_quantity (c : CartResponse) : Nat :=
  (c.items.map (fun it => it.quantity)).sum

/-- The filter of `GET /cart`: computed price and total quantity, bounds
inclusive on both ends. -/
def cart_passes (min_price max_price : Option ℚ) (min_quantity max_quantity : Option Nat)
    (c : CartResponse) : Bool :=
  (match min_price with | none => true | some mp => decide (mp ≤ c.price)) &&
  (match max_price with | none => true | some mp => decide (c.price ≤ mp)) &&
  (match min_quantity with | none => true | some mq => decide (mq ≤ cart_quantity c)) &&
  (match max_quantity with | none => true | some mq => decide (cart_quantity c ≤ mq))

/-- `GET /cart`: materialize every cart (a dangling reference in any cart
crashes the whole listing, hence `Option`), filter, paginate. -/
def get_carts (s : State) (offset limit : Nat) (min_price max_price : Option ℚ)
    (min_quantity max_quantity : Option Nat) : Option (List CartResponse) :=
  match mapOption (build_cart_response s.items_map) (s.cart_map.map Prod.snd) with
  | none => none
  | some carts =>
    some (apply_offset_limit
      (carts.filter (cart_passes min_price max_price min_quantity max_quantity)) offset limit)

/-- `GET /item` declares `min_price: Query(default=None, gt=0)` and
`max_price: Query(default=None, gt=0)`: a supplied price bound must be
strictly positive to pass FastAPI's validation on the item-list endpoint. -/
def get_items_price_param_ok (p : ℚ) : Bool := decide (0 < p)

/-- `GET /cart` declares `min_price: Query(default=None, ge=0)` and
`max_price: Query(default=None, ge=0)`: a supplied price bound must be
non-negative to pass FastAPI's validation on the cart-list endpoint. -/
def get_carts_price_param_ok (p : ℚ) : Bool := decide (0 ≤ p)

/-- One public mutating operation of the HTTP interface. -/
inductive Op where
  | createItem (name : String) (price : ℚ)
  | createCart
  | addItem (cart_id item_id : Nat)
  | putItem (id : Nat) (name : String) (price : ℚ)
  | patchItem (id : Nat) (name? : Option String) (price? : Option ℚ)
  | deleteItem (id : Nat)

/-- Run one operation; a failed one (HTTP 404) raises before mutating, so it
leaves the state unchanged. -/
def step (s : State) : Op → State
  | .createItem n p => (create_item s n p).2
  | .createCart => (create_cart s).2
  | .addItem c i => (add_item_to_cart s c i).getD s
  | .putItem i n p => ((put_item s i n p).map Prod.snd).getD s
  | .patchItem i n? p? => ((patch_item s i n? p?).map (fun r => r.2.2)).getD s
  | .deleteItem i => (delete_item s i).getD s

/-- The empty store the service boots with. -/
def initState : State := { items_map := [], cart_map := [] }

/-- The state after a sequence of public operations from the empty store. -/
def run (ops : List Op) : State := ops.foldl step initState

/-- Every id in every stored cart's `item_ids` is a key of `items_map`. -/
def cart_refs_present (s : State) : Prop :=
  ∀ kc ∈ s.cart_map, ∀ id ∈ kc.2.item_ids, (dictGet s.items_map id).isSome = true

/-- The current price of the item stored under `id` (`items_map[id].price`);
the default is never consulted where this is used, since it is only applied
to ids whose lookup succeeded. -/
def item_price (m : ItemsMap) (id : Nat) : ℚ :=
  ((dictGet m id).map Item.price).getD 0

/-- The item dict's keys are exactly `1, 2, …, len` in insertion order — the
shape every reachable state has, since ids are assigned as `len + 1` and no
operation removes an entry. -/
def items_keys_canonical (s : State) : Prop :=
  s.items_map.map Prod.fst = List.range' 1 s.items_map.length

/-! ## Dictionary lemmas -/

theorem dictGet_cons {α : Type} (p : Nat × α) (t : List (Nat × α)) (k : Nat) :
    dictGet (p :: t) k = if p.1 == k then some p.2 else dictGet t k := by
  by_cases h : p.1 == k <;> simp [dictGet, List.find?, h]

theorem dictHas_eq_isSome {α : Type} (m : List (Nat × α)) (k : Nat) :
    dictHas m k = (dictGet m k).isSome := by
  induction m with
  | nil => rfl
  | cons p t ih =>
    cases h : p.1 == k
    · simpa [dictHas, List.any_cons, h, dictGet_cons] using ih
    · simp [dictHas, List.any_cons, h, dictGet_cons]

theorem dictGet_dictSet_self {α : Type} (m : List (Nat × α)) (k : Nat) (v : α) :
    dictGet (dictSet m k v) k = some v := by
  induction m with
  | nil => simp [dictSet, dictGet_cons]
  | cons p t ih =>
    by_cases h : p.1 == k <;> simp [dictSet, h, dictGet_cons, ih]

theorem dictGet_dictSet_ne {α : Type} (m : List (Nat × α)) {k k' : Nat} (v : α)
    (h : k' ≠ k) : dictGet (dictSet m k v) k' = dictGet m k' := by
  induction m with
  | nil =>
    have hk : (k == k') = false := by simpa using Ne.symm h
    simp [dictSet, dictGet_cons, hk]
  | cons p t ih =>
    by_cases hp : p.1 == k
    · have hk : (k == k') = false := by simpa using Ne.symm h
      have hp' : (p.1 == k') = false := by
        simp only [beq_iff_eq] at hp
        simpa [hp] using Ne.symm h
      simp [dictSet, hp, dictGet_cons, hk, hp']
    · simp [dictSet, hp, dictGet_cons, ih]

theorem isSome_dictGet_dictSet {α : Type} (m : List (Nat × α)) {k' : Nat} (k : Nat) (v : α)
    (h : (dictGet m k').isSome = true) : (dictGet (dictSet m k v) k').isSome = true := by
  by_cases hk : k' = k
  · subst hk; simp [dictGet_dictSet_self]
  · rwa [dictGet_dictSet_ne m v hk]

theorem keys_dictSet_of_has {α : Type} (m : List (Nat × α)) (k : Nat) (v : α)
    (h : dictHas m k = true) : (dictSet m k v).map Prod.fst = m.map Prod.fst := by
  induction m with
  | nil => simp [dictHas] at h
  | cons p t ih =>
    by_cases hp : p.1 == k
    · simp only [beq_iff_eq] at hp
      simp [dictSet, hp]
    · have ht : dictHas t k = true := by simpa [dictHas, hp] using h
      simp [dictSet, hp, ih ht]

theorem dictSet_of_not_has {α : Type} (m : List (Nat × α)) (k : Nat) (v : α)
    (h : dictHas m k = false) : dictSet m k v = m ++ [(k, v)] := by
  induction m with
  | nil => rfl
  | cons p t ih =>
    have hp : (p.1 == k) = false := by
      cases hpk : p.1 == k
      · rfl
      · simp [dictHas, hpk] at h
    have ht : dictHas t k = false := by simpa [dictHas, hp] using h
    simp [dictSet, hp, ih ht]

theorem length_dictSet_of_has {α : Type} (m : List (Nat × α)) (k : Nat) (v : α)
    (h : dictHas m k = true) : (dictSet m k v).length = m.length := by
  have := congrArg List.length (keys_dictSet_of_has m k v h)
  simpa using this

theorem mem_dictSet {α : Type} {m : List (Nat × α)} {k : Nat} {v : α} {q : Nat × α}
    (h : q ∈ dictSet m k v) : q = (k, v) ∨ q ∈ m := by
  induction m with
  | nil => simpa [dictSet] using h
  | cons p t ih =>
    by_cases hp : p.1 == k
    · simp only [dictSet, hp, if_true, List.mem_cons] at h
      exact h.imp id (List.mem_cons_of_mem p)
    · simp only [dictSet, hp, Bool.false_eq_true, if_false, List.mem_cons] at h
      rcases h with h | h
      · exact Or.inr (by simp [h])
      · exact (ih h).imp id (List.mem_cons_of_mem p)

theorem dictGet_mem {α : Type} {m : List (Nat × α)} {k : Nat} {v : α}
    (h : dictGet m k = some v) : (k, v) ∈ m := by
  induction m with
  | nil => simp [dictGet] at h
  | cons p t ih =>
    rw [dictGet_cons] at h
    by_cases hp : p.1 == k
    · simp only [hp, if_true, Option.some.injEq] at h
      simp only [beq_iff_eq] at hp
      have hpkv : p = (k, v) := by
        obtain ⟨p1, p2⟩ := p
        simp_all
      rw [← hpkv]
      exact List.mem_cons_self p t
    · simp only [hp, Bool.false_eq_true, if_false] at h
      exact List.mem_cons_of_mem _ (ih h)

theorem isSome_dictGet_iff_mem_keys {α : Type} (m : List (Nat × α)) (k : Nat) :
    (dictGet m k).isSome = true ↔ k ∈ m.map Prod.fst := by
  induction m with
  | nil => simp [dictGet]
  | cons p t ih =>
    rw [dictGet_cons]
    by_cases hp : p.1 == k
    · simp only [beq_iff_eq] at hp
      simp [hp]
    · have hne : p.1 ≠ k := by simpa using hp
      simp [hp, ih, Ne.symm hne]

/-! ## State-machine lemmas: what one operation does to the two dicts -/

theorem step_items_isSome (s : State) (op : Op) (k : Nat)
    (h : (dictGet s.items_map k).isSome = true) :
    (dictGet (step s op).items_map k).isSome = true := by
  cases op with
  | createItem n p =>
    simp only [step, create_item]
    exact isSome_dictGet_dictSet _ _ _ h
  | createCart => exact h
  | addItem c i =>
    simp only [step, add_item_to_cart]
    split
    · exact h
    · split
      · exact h
      · exact h
  | putItem i n p =>
    simp only [step, put_item]
    split
    · exact isSome_dictGet_dictSet _ _ _ h
    · exact h
  | patchItem i n? p? =>
    simp only [step, patch_item]
    split
    · exact h
    · split
      · exact h
      · exact isSome_dictGet_dictSet _ _ _ h
  | deleteItem i =>
    simp only [step, delete_item]
    split
    · exact h
    · exact isSome_dictGet_dictSet _ _ _ h

theorem step_addItem (s : State) (c i : Nat) :
    step s (Op.addItem c i) = s ∨
    ∃ cart, dictGet s.cart_map c = some cart ∧ dictHas s.items_map i = true ∧
      step s (Op.addItem c i) =
        { s with cart_map := dictSet s.cart_map c
                   { cart with item_ids := cart.item_ids ++ [i] } } := by
  simp only [step, add_item_to_cart]
  cases hg : dictGet s.cart_map c with
  | none => left; rfl
  | some cart =>
    by_cases hi : dictHas s.items_map i
    · right
      refine ⟨cart, rfl, hi, ?_⟩
      simp [hi]
    · left
      simp [hi]

theorem step_preserves_cart_refs (s : State) (op : Op)
    (h : cart_refs_present s) : cart_refs_present (step s op) := by
  cases op with
  | createItem n p =>
    intro kc hkc id hid
    exact isSome_dictGet_dictSet _ _ _ (h kc hkc id hid)
  | createCart =>
    intro kc hkc id hid
    simp only [step, create_cart] at hkc
    rcases mem_dictSet hkc with rfl | hkc'
    · simp at hid
    · exact h kc hkc' id hid
  | addItem c i =>
    rcases step_addItem s c i with heq | ⟨cart, hg, hi, heq⟩
    · rw [heq]; exact h
    · rw [heq]
      intro kc hkc id hid
      rcases mem_dictSet hkc with rfl | hkc'
      · simp only [List.mem_append, List.mem_singleton] at hid
        rcases hid with hid' | hid'
        · exact h (c, cart) (dictGet_mem hg) id hid'
        · subst hid'
          rw [dictHas_eq_isSome] at hi
          exact hi
      · exact h kc hkc' id hid
  | putItem i n p =>
    intro kc hkc id hid
    have hc : (step s (Op.putItem i n p)).cart_map = s.cart_map := by
      simp only [step, put_item]
      split <;> rfl
    rw [hc] at hkc
    exact step_items_isSome s (Op.putItem i n p) id (h kc hkc id hid)
  | patchItem i n? p? =>
    intro kc hkc id hid
    have hc : (step s (Op.patchItem i n? p?)).cart_map = s.cart_map := by
      simp only [step, patch_item]
      split
      · rfl
      · split <;> rfl
    rw [hc] at hkc
    exact step_items_isSome s (Op.patchItem i n? p?) id (h kc hkc id hid)
  | deleteItem i =>
    intro kc hkc id hid
    have hc : (step s (Op.deleteItem i)).cart_map = s.cart_map := by
      simp only [step, delete_item]
      split <;> rfl
    rw [hc] at hkc
    exact step_items_isSome s (Op.deleteItem i) id (h kc hkc id hid)

theorem foldl_preserves_cart_refs (ops : List Op) :
    ∀ s : State, cart_refs_present s → cart_refs_present (ops.foldl step s) := by
  induction ops with
  | nil => intro s h; exact h
  | cons op t ih => intro s h; exact ih (step s op) (step_preserves_cart_refs s op h)

theorem items_keys_canonical_dictSet (s : State) (k : Nat) (v : Item)
    (hk : dictHas s.items_map k = true) (h : items_keys_canonical s) :
    items_keys_canonical { s with items_map := dictSet s.items_map k v } := by
  show (dictSet s.items_map k v).map Prod.fst
      = List.range' 1 (dictSet s.items_map k v).length
  rw [keys_dictSet_of_has _ _ _ hk, length_dictSet_of_has _ _ _ hk]
  exact h

theorem step_items_keys (s : State) (op : Op)
    (h : items_keys_canonical s) : items_keys_canonical (step s op) := by
  cases op with
  | createItem n p =>
    have hnot : dictHas s.items_map (s.items_map.length + 1) = false := by
      rw [dictHas_eq_isSome]
      by_contra hx
      have hx' : (dictGet s.items_map (s.items_map.length + 1)).isSome = true := by
        revert hx
        cases (dictGet s.items_map (s.items_map.length + 1)).isSome <;> simp
      have hmem := (isSome_dictGet_iff_mem_keys _ _).mp hx'
      rw [h] at hmem
      have := List.mem_range'_1.mp hmem
      omega
    show (dictSet s.items_map (s.items_map.length + 1) _).map Prod.fst
        = List.range' 1 (dictSet s.items_map (s.items_map.length + 1) _).length
    rw [dictSet_of_not_has _ _ _ hnot]
    simp only [List.map_append, List.length_append, List.map_cons, List.map_nil,
      List.length_cons, List.length_nil]
    rw [h, List.range'_concat]
    simp [Nat.add_comm]
  | createCart => exact h
  | addItem c i =>
    have hi : (step s (Op.addItem c i)).items_map = s.items_map := by
      simp only [step, add_item_to_cart]
      split
      · rfl
      · split <;> rfl
    show (step s (Op.addItem c i)).items_map.map Prod.fst
        = List.range' 1 (step s (Op.addItem c i)).items_map.length
    rw [hi]
    exact h
  | putItem i n p =>
    simp only [step, put_item]
    by_cases hi : dictHas s.items_map i
    · rw [if_pos hi]
      exact items_keys_canonical_dictSet s i _ hi h
    · rw [if_neg hi]
      exact h
  | patchItem i n? p? =>
    simp only [step, patch_item]
    cases hg : dictGet s.items_map i with
    | none => exact h
    | some item =>
      by_cases hd : item.deleted
      · simp only [hd, if_true]
        exact h
      · simp only [hd, Bool.false_eq_true, if_false, Option.map_some, Option.getD_some]
        have hhas : dictHas s.items_map i = true := by
          rw [dictHas_eq_isSome, hg]; rfl
        exact items_keys_canonical_dictSet s i _ hhas h
  | deleteItem i =>
    simp only [step, delete_item]
    cases hg : dictGet s.items_map i with
    | none => exact h
    | some item =>
      have hhas : dictHas s.items_map i = true := by
        rw [dictHas_eq_isSome, hg]; rfl
      exact items_keys_canonical_dictSet s i _ hhas h

theorem foldl_items_keys (ops : List Op) :
    ∀ s : State, items_keys_canonical s → items_keys_canonical (ops.foldl step s) := by
  induction ops with
  | nil => intro s h; exact h
  | cons op t ih => intro s h; exact ih (step s op) (step_items_keys s op h)

theorem run_items_keys (ops : List Op) : items_keys_canonical (run ops) :=
  foldl_items_keys ops initState rfl

/-! ## Lemmas about `mapOption`, `firstOccurrences` and the cart view -/

theorem mapOption_isSome {α β : Type} (f : α → Option β) (l : List α)
    (h : ∀ x ∈ l, (f x).isSome = true) : (mapOption f l).isSome = true := by
  induction l with
  | nil => rfl
  | cons x xs ih =>
    have hx := h x (List.mem_cons_self x xs)
    have hxs := ih (fun y hy => h y (List.mem_cons_of_mem x hy))
    simp only [mapOption]
    cases hfx : f x with
    | none => simp [hfx] at hx
    | some y =>
      cases hm : mapOption f xs with
      | none => simp [hm] at hxs
      | some ys => rfl

theorem mapOption_mem_of_eq_some {α β : Type} {f : α → Option β} {l : List α} {ys : List β}
    (h : mapOption f l = some ys) : ∀ y ∈ ys, ∃ x ∈ l, f x = some y := by
  induction l generalizing ys with
  | nil =>
    simp only [mapOption, Option.some.injEq] at h
    subst h
    intro y hy
    cases hy
  | cons x xs ih =>
    simp only [mapOption] at h
    split at h
    next y0 ys0 hfx hm =>
      injection h with h
      subst h
      intro y hy
      rcases List.mem_cons.mp hy with rfl | hy'
      · exact ⟨x, List.mem_cons_self x xs, hfx⟩
      · rcases ih hm y hy' with ⟨x', hx', hfx'⟩
        exact ⟨x', List.mem_cons_of_mem x hx', hfx'⟩
    next => cases h

theorem mapOption_eq_map {α β : Type} {f : α → Option β} {g : α → β} {l : List α} {ys : List β}
    (hg : ∀ x y, f x = some y → y = g x) (h : mapOption f l = some ys) : ys = l.map g := by
  induction l generalizing ys with
  | nil =>
    simp only [mapOption, Option.some.injEq] at h
    subst h
    rfl
  | cons x xs ih =>
    simp only [mapOption] at h
    split at h
    next y0 ys0 hfx hm =>
      injection h with h
      subst h
      rw [List.map_cons, hg x y0 hfx, ih hm]
    next => cases h

theorem mem_firstOccurrences (l : List Nat) (x : Nat) :
    x ∈ firstOccurrences l ↔ x ∈ l := by
  induction l with
  | nil => simp [firstOccurrences]
  | cons a t ih =>
    simp only [firstOccurrences, List.mem_cons, List.mem_filter]
    constructor
    · rintro (rfl | ⟨hx, _⟩)
      · exact Or.inl rfl
      · exact Or.inr (ih.mp hx)
    · rintro (rfl | hx)
      · exact Or.inl rfl
      · by_cases hxa : x = a
        · exact Or.inl hxa
        · exact Or.inr ⟨ih.mpr hx, by simp [hxa]⟩

theorem mem_counterItems_fst {l : List Nat} {p : Nat × Nat} (h : p ∈ counterItems l) :
    p.1 ∈ l := by
  rcases List.mem_map.mp h with ⟨x, hx, rfl⟩
  exact (mem_firstOccurrences l x).mp hx

theorem build_cart_item_isSome (m : ItemsMap) (id count : Nat)
    (h : (dictGet m id).isSome = true) : (build_cart_item m id count).isSome = true := by
  unfold build_cart_item
  cases hg : dictGet m id with
  | none => simp [hg] at h
  | some it => rfl

theorem build_cart_item_id {m : ItemsMap} {id count : Nat} {it : CartItem}
    (h : build_cart_item m id count = some it) :
    it.id = id ∧ (dictGet m id).isSome = true := by
  unfold build_cart_item at h
  cases hg : dictGet m id with
  | none => rw [hg] at h; cases h
  | some it0 =>
    rw [hg] at h
    injection h with h
    subst h
    exact ⟨rfl, rfl⟩

theorem build_cart_response_isSome (m : ItemsMap) (cart : Cart)
    (h : ∀ id ∈ cart.item_ids, (dictGet m id).isSome = true) :
    (build_cart_response m cart).isSome = true := by
  have h1 : (mapOption (fun p => build_cart_item m p.1 p.2) (counterItems cart.item_ids)).isSome
      = true := by
    apply mapOption_isSome
    intro p hp
    exact build_cart_item_isSome m p.1 p.2 (h p.1 (mem_counterItems_fst hp))
  unfold build_cart_response
  split
  next hm1 => rw [hm1] at h1; cases h1
  next items hm1 =>
    have h2 : (mapOption
        (fun it => (dictGet m it.id).map (fun i => (it.quantity : ℚ) * i.price))
        (items.filter (fun it => it.available))).isSome = true := by
      apply mapOption_isSome
      intro it hit
      have hit' : it ∈ items := (List.mem_filter.mp hit).1
      rcases mapOption_mem_of_eq_some hm1 it hit' with ⟨p, hp, hbuild⟩
      rcases build_cart_item_id hbuild with ⟨hid, hsome⟩
      rw [hid]
      cases hg : dictGet m p.1 with
      | none => rw [hg] at hsome; cases hsome
      | some it0 => rfl
    split
    next hm2 => rw [hm2] at h2; cases h2
    next prices hm2 => rfl

theorem mapOption_exists_of_mem {α β : Type} {f : α → Option β} {l : List α} {ys : List β}
    (h : mapOption f l = some ys) : ∀ x ∈ l, ∃ y ∈ ys, f x = some y := by
  induction l generalizing ys with
  | nil =>
    intro x hx
    cases hx
  | cons x xs ih =>
    simp only [mapOption] at h
    split at h
    next y0 ys0 hfx hm =>
      injection h with h
      subst h
      intro z hz
      rcases List.mem_cons.mp hz with rfl | hz'
      · exact ⟨y0, List.mem_cons_self y0 ys0, hfx⟩
      · rcases ih hm z hz' with ⟨y, hy, hfz⟩
        exact ⟨y, List.mem_cons_of_mem y0 hy, hfz⟩
    next => cases h

theorem build_cart_response_single (m : ItemsMap) (cid i : Nat) (it : Item)
    (hg : dictGet m i = some it) (hd : it.deleted = false) :
    build_cart_response m { id := cid, item_ids := [i] }
      = some { id := cid,
               items := [{ id := i, name := it.name, quantity := 1, available := true }],
               price := it.price } := by
  unfold build_cart_response counterItems firstOccurrences build_cart_item
  simp [mapOption, hg, hd, List.count, List.countP, List.countP.go]

theorem apply_offset_limit_eq_drop_take {α : Type} (data : List α) (o l : Nat) :
    apply_offset_limit data o l = (data.drop o).take l := by
  unfold apply_offset_limit
  rw [List.drop_take, List.take_eq_take]
  simp only [List.length_drop]
  omega

/-! ## The claims -/

/-- Claim C10: in every state reachable from the empty store through the
public operations, every id occurring in any stored cart's `item_ids` is a
key of the item dict (`add_item_to_cart` only appends ids that exist at call
time, and no operation removes an item entry), and consequently materializing
any stored cart's view never fails on a missing item. -/
theorem reachable_cart_refs_present (ops : List Op) :
    cart_refs_present (run ops)
    ∧ ∀ k kc, dictGet (run ops).cart_map k = some kc →
        (build_cart_response (run ops).items_map kc).isSome = true := by
  have hrefs : cart_refs_present (run ops) := by
    apply foldl_preserves_cart_refs
    intro kc hkc
    simp [initState] at hkc
  refine ⟨hrefs, fun k kc hk => ?_⟩
  exact build_cart_response_isSome _ _ (hrefs (k, kc) (dictGet_mem hk))

/-- Claim C1, counterexample: after one `createCart` from the empty store, a
cart with id 1 is stored, and the very next `createCart` assigns id 1 again
(it is `len(items_map) + 1` and no item exists), overwriting the stored cart
— so cart ids are not unique and are reused. -/
theorem create_cart_reuses_id_counterexample :
    (dictGet (run [Op.createCart]).cart_map 1).isSome = true
    ∧ (create_cart (run [Op.createCart])).1 = 1
    ∧ (run [Op.createCart, Op.createCart]).cart_map = [(1, { id := 1, item_ids := [] })] :=
  ⟨rfl, rfl, rfl⟩

/-- Claim C1 (amended): item ids are unique within the item collection and
never reused — in every reachable state, `create_item` assigns an id not held
by any stored item and appends a fresh entry, overwriting nothing.  Cart ids
do not have this property: `create_cart` numbers carts against the item
dict's size, so a cart id already held by a stored cart can be assigned
again, overwriting that cart (see the counterexample). -/
theorem create_item_never_reuses_id (ops : List Op) (n : String) (p : ℚ) :
    dictGet (run ops).items_map (create_item (run ops) n p).1.id = none
    ∧ (create_item (run ops) n p).2.items_map
        = (run ops).items_map
            ++ [((create_item (run ops) n p).1.id, (create_item (run ops) n p).1)] := by
  have hkeys := run_items_keys ops
  have hnot : dictHas (run ops).items_map ((run ops).items_map.length + 1) = false := by
    rw [dictHas_eq_isSome]
    cases hx : (dictGet (run ops).items_map ((run ops).items_map.length + 1)).isSome with
    | false => rfl
    | true =>
      have hmem := (isSome_dictGet_iff_mem_keys _ _).mp hx
      rw [hkeys] at hmem
      have := List.mem_range'_1.mp hmem
      omega
  have hid : (create_item (run ops) n p).1.id = (run ops).items_map.length + 1 := rfl
  constructor
  · rw [hid]
    rw [dictHas_eq_isSome] at hnot
    cases hg : dictGet (run ops).items_map ((run ops).items_map.length + 1) with
    | none => rfl
    | some it => rw [hg] at hnot; cases hnot
  · rw [hid]
    show dictSet (run ops).items_map ((run ops).items_map.length + 1) _
        = (run ops).items_map ++ _
    rw [dictSet_of_not_has _ _ _ hnot]
    rfl

/-- Claim C5: `create_cart` assigns the new cart the id
`len(items_map) + 1` — the number of stored *items* plus one, the preserved
cross-collection quirk — and `create_item` likewise assigns
`len(items_map) + 1`; both ids are functions of the current store alone, with
no separate counter. -/
theorem create_ids_are_item_count_plus_one (s : State) (n : String) (p : ℚ) :
    (create_item s n p).1.id = s.items_map.length + 1
    ∧ (create_cart s).1 = s.items_map.length + 1 :=
  ⟨rfl, rfl⟩

/-- Claim C2, counterexample: a cart whose `item_ids` holds an id absent from
the item dict is stored, yet `get_cart` on it fails: `build_cart_item` runs
`items_map.get(id)` and then reads `.name` off the result, which raises on
`None`.  (No such cart is reachable through the public operations — see
`ShopApi.reachable_cart_refs_present` — but the view construction itself does
not tolerate absent references.) -/
theorem absent_ref_fails_cart_view_counterexample :
    (dictGet
      ({ items_map := [], cart_map := [(1, { id := 1, item_ids := [1] })] } : State).cart_map
      1).isSome = true
    ∧ get_cart { items_map := [], cart_map := [(1, { id := 1, item_ids := [1] })] } 1 = none :=
  ⟨rfl, rfl⟩

/-- Claim C2 (amended): references to *deleted* items never cause a failure:
whenever every id in a stored cart's `item_ids` is a key of the item dict —
deleted or not — `get_cart` on that cart succeeds, and `get_carts` succeeds
whenever that holds of every stored cart.  Only an id absent from the dict
altogether makes view construction fail, and carts holding one cannot arise
through the public operations. -/
theorem deleted_refs_never_fail_cart_view (s : State) (k : Nat) (cart : Cart)
    (hk : dictGet s.cart_map k = some cart)
    (hall : ∀ id ∈ cart.item_ids, (dictGet s.items_map id).isSome = true)
    (offset limit : Nat) (mp Mp : Option ℚ) (mq Mq : Option Nat)
    (hs : ∀ kc ∈ s.cart_map, ∀ id ∈ kc.2.item_ids, (dictGet s.items_map id).isSome = true) :
    (get_cart s k).isSome = true
    ∧ (get_carts s offset limit mp Mp mq Mq).isSome = true := by
  constructor
  · unfold get_cart
    rw [hk]
    exact build_cart_response_isSome _ _ hall
  · have hm : (mapOption (build_cart_response s.items_map)
        (s.cart_map.map Prod.snd)).isSome = true := by
      apply mapOption_isSome
      intro c hc
      rcases List.mem_map.mp hc with ⟨kc, hkc, rfl⟩
      exact build_cart_response_isSome _ _ (fun id hid => hs kc hkc id hid)
    unfold get_carts
    split
    next hnone => rw [hnone] at hm; cases hm
    next carts hsome => rfl

/-- Claim C2, witness instance: a stored cart referencing only a deleted item
materializes without error, both through `get_cart` and `get_carts`. -/
theorem deleted_refs_never_fail_witness :
    (get_cart { items_map := [(1, { id := 1, name := "a", price := 5, deleted := true })],
                cart_map := [(1, { id := 1, item_ids := [1, 1] })] } 1).isSome = true
    ∧ (get_carts { items_map := [(1, { id := 1, name := "a", price := 5, deleted := true })],
                   cart_map := [(1, { id := 1, item_ids := [1, 1] })] }
        0 10 none none none none).isSome = true :=
  deleted_refs_never_fail_cart_view
    { items_map := [(1, { id := 1, name := "a", price := 5, deleted := true })],
      cart_map := [(1, { id := 1, item_ids := [1, 1] })] }
    1 { id := 1, item_ids := [1, 1] } rfl (by decide) 0 10 none none none none (by decide)

/-- Claim C4: on a stored item id, `patch_item` with a deleted item mutates
nothing, reports not-modified (`false`) and still returns the unchanged item;
with a non-deleted item it writes exactly the supplied fields, leaves unset
fields as they were, and reports modified (`true`). -/
theorem patch_item_spec (s : State) (id : Nat) (it : Item)
    (h : dictGet s.items_map id = some it) (n? : Option String) (p? : Option ℚ) :
    (it.deleted = true → patch_item s id n? p? = some (it, false, s))
    ∧ (it.deleted = false →
        patch_item s id n? p?
          = some ({ it with name := n?.getD it.name, price := p?.getD it.price }, true,
              { s with items_map := dictSet s.items_map id { it with name := n?.getD it.name, price := p?.getD it.price } })) := by
  unfold patch_item
  rw [h]
  constructor
  · intro hd
    simp [hd]
  · intro hd
    obtain ⟨iid, iname, iprice, idel⟩ := it
    have hd2 : idel = false := hd
    subst hd2
    cases n? <;> cases p? <;> rfl

/-- Claim C4, witness instance: patching name only on a live item rewrites
the name, keeps the price, and reports modified. -/
theorem patch_item_witness :
    patch_item { items_map := [(1, { id := 1, name := "a", price := 5, deleted := false })],
                 cart_map := [] } 1 (some "b") none
      = some ({ id := 1, name := "b", price := 5, deleted := false }, true,
          { items_map := [(1, { id := 1, name := "b", price := 5, deleted := false })],
            cart_map := [] }) :=
  (patch_item_spec
    { items_map := [(1, { id := 1, name := "a", price := 5, deleted := false })], cart_map := [] }
    1 { id := 1, name := "a", price := 5, deleted := false } rfl (some "b") none).2 rfl

/-- Claim C6: `get_item` fails exactly when the id is unknown or the stored
item is deleted; a stored non-deleted item is returned as stored; an item
just created is returned by `get_item` at its new id; and after a successful
soft delete, `get_item` at that id fails. -/
theorem get_item_spec (s : State) (id : Nat) :
    (get_item s id = none ↔
      dictGet s.items_map id = none
      ∨ ∃ it, dictGet s.items_map id = some it ∧ it.deleted = true)
    ∧ (∀ it, dictGet s.items_map id = some it → it.deleted = false →
        get_item s id = some it)
    ∧ (∀ n p, get_item (create_item s n p).2 (create_item s n p).1.id
        = some (create_item s n p).1)
    ∧ (∀ s2, delete_item s id = some s2 → get_item s2 id = none) := by
  refine ⟨?_, ?_, ?_, ?_⟩
  · unfold get_item
    cases hg : dictGet s.items_map id with
    | none => simp
    | some it =>
      cases hd : it.deleted <;> simp [hd]
  · intro it hg hd
    unfold get_item
    rw [hg]
    simp [hd]
  · intro n p
    unfold get_item
    rw [show (create_item s n p).2.items_map
          = dictSet s.items_map (s.items_map.length + 1)
              (build_item (s.items_map.length + 1) n p) from rfl,
        show (create_item s n p).1.id = s.items_map.length + 1 from rfl,
        dictGet_dictSet_self]
    rfl
  · intro s2 hdel
    unfold delete_item at hdel
    cases hg : dictGet s.items_map id with
    | none => rw [hg] at hdel; cases hdel
    | some it =>
      rw [hg] at hdel
      injection hdel with hdel
      subst hdel
      unfold get_item
      rw [show ({ s with items_map := dictSet s.items_map id { it with deleted := true } }
            : State).items_map = dictSet s.items_map id { it with deleted := true } from rfl,
          dictGet_dictSet_self]
      rfl

/-- Claim C7: `put_item` fails exactly when the id is unknown; on every
stored id — deleted or not — it succeeds and stores an item with the
requested name and price and `deleted = false`: a replace always resurrects
a soft-deleted item. -/
theorem put_item_spec (s : State) (id : Nat) (n : String) (p : ℚ) :
    (put_item s id n p = none ↔ dictGet s.items_map id = none)
    ∧ (∀ it, dictGet s.items_map id = some it →
        put_item s id n p
          = some ({ id := id, name := n, price := p, deleted := false },
              { s with items_map :=
                  dictSet s.items_map id { id := id, name := n, price := p, deleted := false } })
        ∧ dictGet (dictSet s.items_map id
              ({ id := id, name := n, price := p, deleted := false } : Item)) id
            = some { id := id, name := n, price := p, deleted := false }) := by
  constructor
  · unfold put_item
    rw [dictHas_eq_isSome]
    cases hg : dictGet s.items_map id <;> simp
  · intro it hg
    have hh : dictHas s.items_map id = true := by rw [dictHas_eq_isSome, hg]; rfl
    constructor
    · unfold put_item
      rw [if_pos hh]
      rfl
    · exact dictGet_dictSet_self _ _ _

/-- Claim C3: a successfully materialized cart view prices exactly the
available lines — `price` is the sum of `quantity * current stored price`
over the lines whose item is not deleted; a line whose item is deleted is
still listed, with `available = false` and the full multiplicity, but
contributes nothing; and the price is recomputed from the current item dict,
so storing a new price for an item changes a cart's reported price on the
next materialization. -/
theorem cart_price_sums_available_lines (m : ItemsMap) (cart : Cart) (resp : CartResponse)
    (h : build_cart_response m cart = some resp) :
    resp.price
      = ((resp.items.filter (fun it => it.available)).map
          (fun it => (it.quantity : ℚ) * item_price m it.id)).sum
    ∧ (∀ id ∈ cart.item_ids, ∀ it, dictGet m id = some it → it.deleted = true →
        ∃ line ∈ resp.items, line.id = id ∧ line.available = false
          ∧ line.quantity = cart.item_ids.count id)
    ∧ (∀ cid i it p2, dictGet m i = some it → it.deleted = false →
        ∃ r1 r2, build_cart_response m { id := cid, item_ids := [i] } = some r1
          ∧ build_cart_response (dictSet m i { it with price := p2 })
              { id := cid, item_ids := [i] } = some r2
          ∧ r1.price = it.price ∧ r2.price = p2) := by
  refine ⟨?_, ?_, ?_⟩
  · unfold build_cart_response at h
    split at h
    next hm1 => cases h
    next items hm1 =>
      split at h
      next hm2 => cases h
      next prices hm2 =>
        injection h with h
        subst h
        show prices.sum = ((items.filter (fun it => it.available)).map
          (fun it => (it.quantity : ℚ) * item_price m it.id)).sum
        have hmap : prices = (items.filter (fun it => it.available)).map
            (fun it => (it.quantity : ℚ) * item_price m it.id) := by
          refine mapOption_eq_map ?_ hm2
          intro it y hy
          cases hg : dictGet m it.id with
          | none => rw [hg] at hy; cases hy
          | some i0 =>
            rw [hg] at hy
            injection hy with hy
            subst hy
            simp [item_price, hg]
        rw [hmap]
  · unfold build_cart_response at h
    split at h
    next hm1 => cases h
    next items hm1 =>
      split at h
      next hm2 => cases h
      next prices hm2 =>
        injection h with h
        subst h
        intro id hid it hg hd
        have hfo : (id, cart.item_ids.count id) ∈ counterItems cart.item_ids :=
          List.mem_map.mpr ⟨id, (mem_firstOccurrences _ _).mpr hid, rfl⟩
        rcases mapOption_exists_of_mem hm1 _ hfo with ⟨line, hline, hbuild⟩
        unfold build_cart_item at hbuild
        rw [hg] at hbuild
        injection hbuild with hbuild
        refine ⟨line, hline, ?_, ?_, ?_⟩
        · rw [← hbuild]
        · rw [← hbuild]
          simp [hd]
        · rw [← hbuild]
  · intro cid i it p2 hg hd
    have h1 := build_cart_response_single m cid i it hg hd
    have hg2 : dictGet (dictSet m i { it with price := p2 }) i
        = some { it with price := p2 } := dictGet_dictSet_self m i _
    have h2 := build_cart_response_single (dictSet m i { it with price := p2 }) cid i
      { it with price := p2 } hg2 hd
    exact ⟨_, _, h1, h2, rfl, rfl⟩

/-- Claim C3, witness instance: a cart holding one deleted item materializes
to a view listing that line as unavailable, and its price is the (empty)
sum over available lines. -/
theorem cart_price_witness :
    ({ id := 7, items := [{ id := 1, name := "a", quantity := 1, available := false }],
       price := 0 } : CartResponse).price
      = ((([{ id := 1, name := "a", quantity := 1, available := false }]
            : List CartItem).filter (fun it => it.available)).map
          (fun it => (it.quantity : ℚ)
            * item_price [(1, { id := 1, name := "a", price := 5, deleted := true })] it.id)).sum :=
  (cart_price_sums_available_lines
    [(1, { id := 1, name := "a", price := 5, deleted := true })]
    { id := 7, item_ids := [1] }
    { id := 7, items := [{ id := 1, name := "a", quantity := 1, available := false }], price := 0 }
    (by decide)).1

/-- Claim C8: `get_items` filters — price bounds inclusive at both ends,
deletion visibility — keeping the stored insertion order (the filtered list
is a sublist of the item dict's values), and only then paginates: the result
is drop-offset-then-take-limit of the filtered list, an offset at or past the
filtered length yields the empty list, the limit never reads past the end,
and offset 0 with the filtered length as limit returns the whole filtered
list in order. -/
theorem get_items_filter_then_paginate (s : State) (mp Mp : Option ℚ) (sd : Bool) :
    (∀ item, item ∈ items_filtered s mp Mp sd ↔
      item ∈ s.items_map.map Prod.snd
      ∧ (∀ q, mp = some q → q ≤ item.price)
      ∧ (∀ q, Mp = some q → item.price ≤ q)
      ∧ (sd = true ∨ item.deleted = false))
    ∧ (items_filtered s mp Mp sd).Sublist (s.items_map.map Prod.snd)
    ∧ (∀ offset limit, get_items s offset limit mp Mp sd
        = ((items_filtered s mp Mp sd).drop offset).take limit)
    ∧ (∀ offset limit, (items_filtered s mp Mp sd).length ≤ offset →
        get_items s offset limit mp Mp sd = [])
    ∧ get_items s 0 (items_filtered s mp Mp sd).length mp Mp sd
        = items_filtered s mp Mp sd := by
  refine ⟨?_, ?_, ?_, ?_, ?_⟩
  · intro item
    unfold items_filtered item_passes
    rw [List.mem_filter]
    cases mp <;> cases Mp <;> cases sd <;> simp [and_assoc]
  · exact List.filter_sublist _
  · intro offset limit
    exact apply_offset_limit_eq_drop_take _ offset limit
  · intro offset limit hlen
    unfold get_items
    rw [apply_offset_limit_eq_drop_take, List.drop_eq_nil_of_le hlen, List.take_nil]
  · unfold get_items
    rw [apply_offset_limit_eq_drop_take, List.drop_zero, List.take_length]

/-- Claim C9, counterexample: the item-list endpoint declares both price
bounds with `gt=0`, so the boundary rejects `min_price = 0` (and
`max_price = 0`) on `GET /item` — zero is not accepted on both list
endpoints as claimed. -/
theorem zero_price_param_rejected_counterexample :
    get_items_price_param_ok 0 = false := by decide

/-- Claim C9 (amended): the cart-list endpoint's `min_price`/`max_price`
validation accepts exactly the non-negative values, zero included (`ge=0`);
the item-list endpoint's accepts exactly the strictly positive values,
rejecting zero (`gt=0`). -/
theorem price_param_validation (p : ℚ) :
    (get_carts_price_param_ok p = true ↔ 0 ≤ p)
    ∧ (get_items_price_param_ok p = true ↔ 0 < p)
    ∧ get_carts_price_param_ok 0 = true := by
  refine ⟨?_, ?_, by decide⟩ <;>
    simp [get_carts_price_param_ok, get_items_price_param_ok]

end ShopApi
